import Mathlib

/-!
Verification development for the pytex log-driven build convergence engine.

The definitions below are a shallow embedding of the Python sources:
`message.py`, `process.py`, `bib.py`, `index.py`, the flat driver `pytex.py`
and the packaged driver `src/pytex/__main__.py`.  Pure functions become Lean
functions; the mutable objects become explicit state-passing; Python
exceptions become an explicit error type; regular-expression scans are
implemented as executable backtracking matchers following the semantics of
the `re` module patterns used by the sources.
-/

/-- Python whitespace class for the patterns used by the sources
(the log files are ASCII, so the ASCII subset of the re module class is
what matters). -/
def isPySpace (c : Char) : Bool :=
  c = ' ' || c = '\t' || c = '\n' || c = '\r' || c = '\x0b' || c = '\x0c'

/-- Python word-character class used for word boundaries in RE_RERUN. -/
def isWordChar (c : Char) : Bool :=
  c.isAlphanum || c = '_'

/-- First successful attempt in a list of candidates; this is how the
backtracking alternatives of a regular expression are ordered. -/
def firstSome {α β : Type} (f : α → Option β) : List α → Option β
  | [] => none
  | a :: as =>
    match f a with
    | some b => some b
    | none => firstSome f as

/-- Python str.strip(): remove leading and trailing whitespace. -/
def pyStrip (s : String) : String :=
  (((s.data.dropWhile isPySpace).reverse.dropWhile isPySpace).reverse).asString

/-- Kernel of collapseSpaces: re.sub of two-or-more spaces by one space
(process.py line 356). -/
def collapseGo (cs : List Char) : List Char :=
  match cs with
  | [] => []
  | ' ' :: ' ' :: rest => collapseGo (' ' :: rest)
  | c :: rest => c :: collapseGo rest

/-- re.sub of runs of two or more spaces by a single space. -/
def collapseSpaces (s : String) : String :=
  (collapseGo s.data).asString

/-- re.sub of a newline not followed by a newline by a space
(process.py line 334, unwrapping the log). -/
def unwrapGo (cs : List Char) : List Char :=
  match cs with
  | [] => []
  | '\n' :: '\n' :: rest => '\n' :: unwrapGo ('\n' :: rest)
  | '\n' :: c :: rest => ' ' :: unwrapGo (c :: rest)
  | ['\n'] => [' ']
  | c :: rest => c :: unwrapGo rest

/-- Unwrap a log text: wrap-induced single newlines become spaces, genuine
blank-line separators are kept. -/
def unwrap (s : String) : String :=
  (unwrapGo s.data).asString

/-- message.py `Message`: one warning or error.  Structural equality over
all five fields, exactly as `Message.__eq__`. -/
structure Message where
  mode : String := ""
  info : String := ""
  name : String := ""
  path : String := ""
  line : String := ""
deriving DecidableEq, Repr

/-- message.py `Messages.__contains__`. -/
def Messages.mem (ms : List Message) (m : Message) : Bool :=
  ms.contains m

/-- message.py `Messages.__iadd__`: append unless already present. -/
def Messages.iadd (ms : List Message) (m : Message) : List Message :=
  if Messages.mem ms m then ms else ms ++ [m]

/-- One of the three name-indexed dictionaries of `ProcessorWarnings`,
kept in insertion order as Python dicts are. -/
abbrev MsgDict := List (String × List Message)

/-- defaultdict access as done by `ProcessorWarnings.__contains__`:
looking a key up creates an empty entry when missing. -/
def MsgDict.touch (d : MsgDict) (k : String) : MsgDict :=
  if d.any (fun p => p.1 = k) then d else d ++ [(k, [])]

/-- The bucket stored under a key (empty when absent). -/
def MsgDict.get (d : MsgDict) (k : String) : List Message :=
  match d.find? (fun p => p.1 = k) with
  | some p => p.2
  | none => []

/-- Append a message to the bucket of a key (creating the entry when
missing, as defaultdict getitem does). -/
def MsgDict.add (d : MsgDict) (k : String) (m : Message) : MsgDict :=
  if d.any (fun p => p.1 = k) then
    d.map (fun p => if p.1 = k then (p.1, p.2 ++ [m]) else p)
  else d ++ [(k, [m])]

/-- process.py `ProcessorWarnings`: warnings split by mode, each mode a
dictionary indexed by name.  The Class dictionary is called `cls` because
`class` is a Lean keyword. -/
structure ProcessorWarnings where
  latex : MsgDict := []
  package : MsgDict := []
  cls : MsgDict := []
deriving DecidableEq, Repr

def ProcessorWarnings.empty : ProcessorWarnings := {}

/-- `ProcessorWarnings.__contains__`: note the defaultdict lookup creates
the key it probes, a side effect returned as the second component. -/
def ProcessorWarnings.containsTouch (pw : ProcessorWarnings) (m : Message) :
    Bool × ProcessorWarnings :=
  if m.mode = "LaTeX" then
    (Messages.mem (MsgDict.get (MsgDict.touch pw.latex m.name) m.name) m,
     { pw with latex := MsgDict.touch pw.latex m.name })
  else if m.mode = "Package" then
    (Messages.mem (MsgDict.get (MsgDict.touch pw.package m.name) m.name) m,
     { pw with package := MsgDict.touch pw.package m.name })
  else if m.mode = "Class" then
    (Messages.mem (MsgDict.get (MsgDict.touch pw.cls m.name) m.name) m,
     { pw with cls := MsgDict.touch pw.cls m.name })
  else
    (false, pw)

/-- `ProcessorWarnings.__iadd__`: skip when already present; otherwise file
the message under its mode and name.  The source tests LaTeX/Package with
if/elif and Class with a separate if, mirrored here. -/
def ProcessorWarnings.iadd (pw : ProcessorWarnings) (m : Message) :
    ProcessorWarnings :=
  match ProcessorWarnings.containsTouch pw m with
  | (true, pw1) => pw1
  | (false, pw1) =>
    let pw2 :=
      if m.mode = "LaTeX" then { pw1 with latex := MsgDict.add pw1.latex m.name m }
      else if m.mode = "Package" then { pw1 with package := MsgDict.add pw1.package m.name m }
      else pw1
    if m.mode = "Class" then { pw2 with cls := MsgDict.add pw2.cls m.name m }
    else pw2

/-- `ProcessorWarnings.__len__`: the number of keys of the three
dictionaries (not the number of stored messages). -/
def ProcessorWarnings.len (pw : ProcessorWarnings) : Nat :=
  pw.latex.length + pw.package.length + pw.cls.length

/-- Total number of messages stored (analysis helper, not from the
source). -/
def ProcessorWarnings.msgCount (pw : ProcessorWarnings) : Nat :=
  ((pw.latex.map (fun p => p.2.length)).sum +
   (pw.package.map (fun p => p.2.length)).sum) +
  (pw.cls.map (fun p => p.2.length)).sum

/-- A token produced by scanning the unwrapped log with
RE_COMBINED_INPUT_WARN_GENERIC (process.py lines 56-59): either a
file-open marker or a generic warning.  `nm` is the optional name
capture. -/
inductive WarnToken where
  | file (filename suffix : String)
  | warn (mode : String) (nm : Option String) (msg : String)
deriving DecidableEq, Repr

/-- Alternative 1 of RE_COMBINED_INPUT_WARN_GENERIC: an opening
parenthesis, a filename fragment starting with a dot, and a suffix with no
dots, whitespace, or closing parentheses.  Both character classes are
greedy and deterministic here (each must be followed by a character it
excludes). -/
def tryFileTok (cs : List Char) : Option (WarnToken × List Char) :=
  match cs with
  | '(' :: '.' :: rest =>
    let fn := rest.takeWhile (fun c => c ≠ '.')
    if fn.isEmpty then none else
    match rest.drop fn.length with
    | '.' :: rest2 =>
      let sfx := rest2.takeWhile (fun c => c ≠ '.' && !isPySpace c && c ≠ ')')
      if sfx.isEmpty then none
      else some (.file (('.' :: fn).asString) (('.' :: sfx).asString),
                 rest2.drop sfx.length)
    | _ => none
  | _ => none

def warningLit : List Char := "Warning:".data

/-- The name/message split of the warning alternative on one logical line
segment: the greedy optional name capture prefers the longest name, i.e.
the last occurrence of "Warning:" that still leaves a nonempty message
slot; the name-absent reading (offset 0) is tried last.  A candidate whose
tail is empty fails and backtracking moves to the previous occurrence.
When the tail is all whitespace the lazy message capture backtracks into
the final whitespace character. -/
def segWarnSplit (seg : List Char) : Option (Option String × String) :=
  firstSome (fun q =>
    if warningLit.isPrefixOf (seg.drop q) then
      let tl := seg.drop (q + 8)
      if tl.isEmpty then none
      else
        let msg :=
          if tl.any (fun c => !isPySpace c) then tl.dropWhile isPySpace
          else
            match tl.getLast? with
            | some c => [c]
            | none => []
        some ((if q = 0 then none else some ((seg.take q).asString)),
              msg.asString)
    else none)
    ((List.range (seg.length + 1)).reverse)

def modeCandidates : List String := ["LaTeX", "Package", "Class"]

/-- Alternative 2 of RE_COMBINED_INPUT_WARN_GENERIC: one of the three mode
words, mandatory whitespace (greedy, possibly crossing remaining
newlines), then the optional-name/"Warning:"/message split on the current
line; the match extends to the end of that line. -/
def tryWarnTok (cs : List Char) : Option (WarnToken × List Char) :=
  firstSome (fun mode =>
    let mcs := mode.data
    if mcs.isPrefixOf cs then
      let afterMode := cs.drop mcs.length
      let ws := afterMode.takeWhile isPySpace
      if ws.isEmpty then none else
      let seg := (afterMode.drop ws.length).takeWhile (fun c => c ≠ '\n')
      match segWarnSplit seg with
      | none => none
      | some (nm, msg) =>
        some (.warn mode nm msg, afterMode.drop (ws.length + seg.length))
    else none) modeCandidates

/-- finditer over RE_COMBINED_INPUT_WARN_GENERIC: at each position try the
file alternative, then the warning alternative, else advance one
character; a match resumes the scan at its end.  Every match consumes at
least one character, so fuel equal to the text length suffices. -/
def scanCombined (fuel : Nat) (cs : List Char) : List WarnToken :=
  match fuel, cs with
  | 0, _ => []
  | _, [] => []
  | fuel + 1, c :: rest =>
    match tryFileTok (c :: rest) with
    | some (tok, after) => tok :: scanCombined fuel after
    | none =>
      match tryWarnTok (c :: rest) with
      | some (tok, after) => tok :: scanCombined fuel after
      | none => scanCombined fuel rest

/-- All tokens of the unwrapped log text. -/
def scanWarnings (txt : String) : List WarnToken :=
  scanCombined (txt.data.length + 1) txt.data

/-- One match of RE_ERROR (process.py line 66): path, line number and the
raw body text up to the next blank-line separator. -/
structure ErrMatch where
  path : String
  line : String
  body : String
deriving DecidableEq, Repr

/-- Ordered prefix-length candidates of the optional path prefix
alternation of RE_ERROR, in the order the regex engine tries them:
a slash, a tilde-slash, a dot-slash, a dot followed by any character and a
slash, and finally the empty prefix. -/
def preCandidates (t : List Char) : List Nat :=
  (match t with | '/' :: _ => [1] | _ => []) ++
  (match t with | '~' :: '/' :: _ => [2] | _ => []) ++
  (match t with | '.' :: '/' :: _ => [2] | _ => []) ++
  (match t with | '.' :: _ :: '/' :: _ => [3] | _ => []) ++
  [0]

/-- Offsets reached after consuming a maximal, then progressively smaller,
number of component-slash groups of RE_ERROR's starred group; each group
is a nonempty run without slashes followed by a slash, so the
decomposition of each prefix is forced and only the group count
backtracks.  The head of the result is the greedy (maximal) stop. -/
def starStops (fuel : Nat) (off : Nat) (cs : List Char) (acc : List Nat) :
    List Nat :=
  match fuel with
  | 0 => acc
  | fuel + 1 =>
    let seg := cs.takeWhile (fun c => c ≠ '/')
    match cs.drop seg.length with
    | '/' :: rest2 =>
      if seg.isEmpty then acc
      else starStops fuel (off + seg.length + 1) rest2
             ((off + seg.length + 1) :: acc)
    | _ => acc

/-- Dot positions usable as the stem/extension split of the final path
component, preferred from the right (the greedy stem backtracks from the
longest stem). -/
def dotCandidates (s : List Char) : List Nat :=
  ((List.range s.length).filter
    (fun d => decide (1 ≤ d) && decide (s.get? d = some '.'))).reverse

/-- Extension length candidates for a given dot position: the extension
class has no dots, so the maximal run is bounded by the next dot, and the
greedy capture backtracks from the longest length down to one. -/
def extCandidates (s : List Char) (d : Nat) : List Nat :=
  let maxE := ((s.drop (d + 1)).takeWhile (fun c => c ≠ '.')).length
  (List.range maxE).reverse.map (fun e => e + 1)

/-- The path/line portion of RE_ERROR against the maximal non-whitespace
token at a line start: returns the colon position (the path is everything
before it) and the digit count of the line number.  Candidates are tried
in the regex engine's backtracking order. -/
def tryPathLine (t : List Char) : Option (Nat × Nat) :=
  firstSome (fun p =>
    let rem := t.drop p
    firstSome (fun o =>
      let s := (rem.drop o).takeWhile (fun c => c ≠ '/')
      if s.isEmpty then none else
      firstSome (fun d =>
        firstSome (fun e =>
          let colonAbs := p + o + d + 1 + e
          match t.get? colonAbs with
          | some ':' =>
            let digits := (t.drop (colonAbs + 1)).takeWhile Char.isDigit
            if digits.isEmpty then none
            else some (colonAbs, digits.length)
          | _ => none)
          (extCandidates s d))
        (dotCandidates s))
      (starStops (rem.length + 1) 0 rem [0]))
    (preCandidates t)

/-- The blank-line lookahead of RE_ERROR at a position: an optional
carriage return, a newline, and whitespace containing another newline
(carriage returns and newlines are themselves whitespace, so the
whitespace-star/final-newline split exists exactly when the maximal
whitespace run after the first newline contains one). -/
def lookaheadSep (cs : List Char) : Bool :=
  let cs1 := match cs with | '\r' :: tl => tl | _ => cs
  match cs1 with
  | '\n' :: rest => (rest.takeWhile isPySpace).contains '\n'
  | _ => false

/-- The lazy body capture: the shortest extent whose end satisfies the
blank-line lookahead, or everything to the end of the text. -/
def takeBody (fuel : Nat) (cs : List Char) : List Char :=
  match fuel, cs with
  | _, [] => []
  | 0, _ => []
  | fuel + 1, c :: rest =>
    if lookaheadSep (c :: rest) then [] else c :: takeBody fuel rest

/-- One attempt of RE_ERROR at a line start. -/
def tryErrorAt (cs : List Char) : Option (ErrMatch × List Char) :=
  let t := cs.takeWhile (fun c => !isPySpace c)
  match tryPathLine t with
  | none => none
  | some (colonAbs, dlen) =>
    let matchEnd := colonAbs + 1 + dlen
    let body := takeBody (cs.length + 1) (cs.drop matchEnd)
    some ({ path := (t.take colonAbs).asString,
            line := ((t.drop (colonAbs + 1)).take dlen).asString,
            body := body.asString },
          cs.drop (matchEnd + body.length))

/-- finditer over RE_ERROR: the pattern is anchored at line starts; a
match resumes the scan at its end (which never falls just after a
newline). -/
def scanErrors (fuel : Nat) (cs : List Char) (atLineStart : Bool) :
    List ErrMatch :=
  match fuel, cs with
  | 0, _ => []
  | _, [] => []
  | fuel + 1, c :: rest =>
    if atLineStart then
      match tryErrorAt (c :: rest) with
      | some (m, after) => m :: scanErrors fuel after false
      | none => scanErrors fuel rest (c = '\n')
    else scanErrors fuel rest (c = '\n')

/-- All RE_ERROR matches of the raw (non-unwrapped) log text. -/
def findErrors (txt : String) : List ErrMatch :=
  scanErrors (txt.data.length + 1) txt.data true

/-- Branch body of RE_RERUN after "Warning:": either the rest of the line
contains the word-bounded word Rerun, or mandatory whitespace followed by
an undefined references/citations phrase. -/
def rerunTailAt (cs : List Char) : Bool :=
  (let line := cs.takeWhile (fun c => c ≠ '\n')
   (List.range line.length).any (fun i =>
     "Rerun".data.isPrefixOf (line.drop i) &&
     (decide (i = 0) ||
       (match line.get? (i - 1) with
        | some c => !isWordChar c
        | none => true)) &&
     (match line.get? (i + 5) with
      | some c => !isWordChar c
      | none => true))) ||
  (let ws := cs.takeWhile isPySpace
   !ws.isEmpty &&
   ("There were undefined references".data.isPrefixOf (cs.drop ws.length) ||
    "There were undefined citations".data.isPrefixOf (cs.drop ws.length)))

/-- Whitespace then "Warning:" then the RE_RERUN tail. -/
def rerunModeTail (cs : List Char) : Bool :=
  let ws := cs.takeWhile isPySpace
  !ws.isEmpty && warningLit.isPrefixOf (cs.drop ws.length) &&
  rerunTailAt (cs.drop (ws.length + 8))

/-- One attempt of RE_RERUN (process.py line 48) at a position: "LaTeX" or
"Package" with an optional whitespace-word group. -/
def rerunAt (cs : List Char) : Bool :=
  ("LaTeX".data.isPrefixOf cs && rerunModeTail (cs.drop 5)) ||
  ("Package".data.isPrefixOf cs &&
    (let rest := cs.drop 7
     (let ws := rest.takeWhile isPySpace
      let wd := (rest.drop ws.length).takeWhile isWordChar
      !ws.isEmpty && !wd.isEmpty &&
        rerunModeTail (rest.drop (ws.length + wd.length))) ||
     rerunModeTail rest))

/-- re.search over RE_RERUN: a match exists somewhere in the text. -/
def rerunSearch (txt : String) : Bool :=
  (List.range (txt.data.length + 1)).any (fun i => rerunAt (txt.data.drop i))

/-- A Python exception kind raised by the modelled code paths. -/
inductive PyErr where
  | fileNotFound
  | attributeError
  | indexError
deriving DecidableEq, Repr

/-- The per-file warning dictionary of the Processor
(defaultdict(ProcessorWarnings), process.py line 187). -/
abbrev PWDict := List (String × ProcessorWarnings)

/-- `self._warnings[file_key] += new_warning`: defaultdict getitem creates
the per-file container, then ProcessorWarnings.__iadd__ runs on it. -/
def PWDict.iadd (d : PWDict) (k : String) (m : Message) : PWDict :=
  if d.any (fun p => p.1 = k) then
    d.map (fun p => if p.1 = k then (p.1, ProcessorWarnings.iadd p.2 m) else p)
  else d ++ [(k, ProcessorWarnings.iadd ProcessorWarnings.empty m)]

/-- process.py `Processor`: the mutable state relevant to diagnostics.
stdout/stderr/return code of the external compiler are not modelled; the
content of the .log file is supplied by the environment as an
`Option String` (none = the file does not exist). -/
structure ProcessorState where
  warnings : PWDict
  global_warnings : List Message
  input_files : List String
  errors : List Message
  rerun : Bool
deriving DecidableEq, Repr

/-- `Processor.__init__` (process.py lines 165-210): empty diagnostics,
the ledger seeded with the empty-string sentinel, and the rerun flag
initially True because the files should be processed at least once. -/
def ProcessorState.init : ProcessorState :=
  { warnings := [], global_warnings := [], input_files := [""],
    errors := [], rerun := true }

/-- The loop body of `Processor.process_warnings` (process.py lines
337-363), folded over the scanned tokens together with the current
file-context key. -/
def warnStep (acc : ProcessorState × String) (t : WarnToken) :
    ProcessorState × String :=
  match t with
  | .file fn sfx =>
    let key := fn ++ sfx
    let s := acc.1
    let s1 :=
      if key ∈ s.input_files then s
      else { s with input_files := s.input_files ++ [key] }
    (s1, key)
  | .warn mode nm msg =>
    let w : Message :=
      { mode := pyStrip mode,
        name := match nm with | none => "" | some n => pyStrip n,
        info := collapseSpaces (pyStrip msg) }
    let s := acc.1
    if Messages.mem s.global_warnings w then (s, acc.2)
    else
      ({ s with warnings := PWDict.iadd s.warnings acc.2 w,
                global_warnings := Messages.iadd s.global_warnings w },
       acc.2)

/-- `Processor.process_warnings`: when the log file is missing, print a
warning and return; otherwise unwrap the text and process the combined
file/warning matches starting from the empty file context. -/
def ProcessorState.process_warnings (s : ProcessorState)
    (logText : Option String) : ProcessorState :=
  match logText with
  | none => s
  | some txt => ((scanWarnings (unwrap txt)).foldl warnStep (s, "")).1

/-- The Message built for one RE_ERROR match (process.py lines 386-390). -/
def mkErrMsg (r : ErrMatch) : Message :=
  { path := r.path, line := r.line, info := r.body }

/-- `Processor.process_errors`: when the log file is missing, print a
warning and return; otherwise append one Message per RE_ERROR match of
the raw text, with no de-duplication. -/
def ProcessorState.process_errors (s : ProcessorState)
    (logText : Option String) : ProcessorState :=
  match logText with
  | none => s
  | some txt =>
    { s with errors :=
        (findErrors txt).foldl (fun es r => es ++ [mkErrMsg r]) s.errors }

/-- `Processor.run` (process.py lines 243-315): clear the warnings, the
global de-duplication set and the error list (the input-file ledger is
left as it is), invoke the compiler (external, not modelled), then read
the .log file with no existence check to update the rerun flag — a
missing log raises FileNotFoundError here — and finally run
process_warnings and process_errors on the same file. -/
def ProcessorState.run (s : ProcessorState) (logText : Option String) :
    Except PyErr ProcessorState :=
  let s1 := { s with warnings := [], global_warnings := [], errors := [] }
  match logText with
  | none => .error .fileNotFound
  | some txt =>
    let s2 := { s1 with rerun := rerunSearch txt }
    .ok ((s2.process_warnings (some txt)).process_errors (some txt))

/-- A fingerprint value as stored by the auxiliary tools: either the empty
string an unconstructed fingerprint holds (`self._fingerprint = ""`), or
an md5 hexdigest of some text.  The hash is idealized as an injective
constructor: equal digests correspond to equal hashed texts, and a
hexdigest (32 hex characters) is never the empty string. -/
inductive Digest where
  | empty
  | md5 (content : String)
deriving DecidableEq, Repr

/-- A file consulted by the auxiliary tools, located by naming convention
next to the source document. -/
inductive FileId where
  | bcf
  | aux (nm : String)
  | idxMain
  | texfile
deriving DecidableEq, Repr

/-- The filesystem evidence the auxiliary tools probe: the
compiled-bibliography control file, the .aux files of the working
directory (in glob order), the main .idx file, and the names matched by
the `<filename>-*.idx` glob. -/
structure FS where
  bcf : Option String := none
  auxFiles : List (String × String) := []
  idxMain : Option String := none
  taggedIdx : List String := []
deriving DecidableEq, Repr

/-- read_text of a FileId against the filesystem evidence. -/
def readFile (fs : FS) (f : FileId) : Option String :=
  match f with
  | .bcf => fs.bcf
  | .aux nm =>
    match fs.auxFiles.find? (fun p => p.1 = nm) with
    | some p => some p.2
    | none => none
  | .idxMain => fs.idxMain
  | .texfile => none

/-- One match attempt of RE_BIB (bib.py line 34): a bibdata, bibstyle or
citation directive with a lazily matched brace group on one line. -/
def bibDirAt (cs : List Char) : Option (List Char × List Char) :=
  firstSome (fun lit =>
    let lcs := lit.data
    if lcs.isPrefixOf cs then
      let rest := cs.drop lcs.length
      let body := rest.takeWhile (fun c => c ≠ '\x7d' && c ≠ '\n')
      match rest.drop body.length with
      | '\x7d' :: rest2 => some (lcs ++ body ++ ['\x7d'], rest2)
      | _ => none
    else none)
    ["\\bibdata\x7b", "\\bibstyle\x7b", "\\citation\x7b"]

/-- finditer over RE_BIB: all directive matches of a text in order. -/
def findBibDirectives (fuel : Nat) (cs : List Char) : List (List Char) :=
  match fuel, cs with
  | 0, _ => []
  | _, [] => []
  | fuel + 1, c :: rest =>
    match bibDirAt (c :: rest) with
    | some (m, after) => m :: findBibDirectives fuel after
    | none => findBibDirectives fuel rest

/-- re.search over RE_BIB: the text contains a bib directive. -/
def hasBibDirective (txt : String) : Bool :=
  !(findBibDirectives (txt.data.length + 1) txt.data).isEmpty

/-- bib.py `guess_bibtool`: a .bcf file selects biber; otherwise an .aux
file containing bib directives selects bibtex; otherwise none. -/
def guess_bibtool (fs : FS) : Option String :=
  if fs.bcf.isSome then some "biber"
  else if fs.auxFiles.any (fun p => hasBibDirective p.2) then some "bibtex"
  else none

/-- bib.py `guess_bibfiles`: for biber, the .bcf file when it exists; for
any other tool value (bibtex or none alike — the source has no bibtex
guard), the .aux files containing bib directives. -/
def guess_bibfiles (fs : FS) (tool : Option String) : List FileId :=
  if tool = some "biber" then
    if fs.bcf.isSome then [FileId.bcf] else []
  else
    (fs.auxFiles.filter (fun p => hasBibDirective p.2)).map
      (fun p => FileId.aux p.1)

/-- The directive concatenation hashed for bibtex: for each file, every
RE_BIB match followed by a newline (bib.py lines 162-172). -/
def bibtexContents (fs : FS) (files : List FileId) : Except PyErr String :=
  files.foldl
    (fun acc f =>
      match acc with
      | .error e => .error e
      | .ok s =>
        match readFile fs f with
        | none => .error .fileNotFound
        | some txt =>
          .ok (s ++ String.join
            ((findBibDirectives (txt.data.length + 1) txt.data).map
              (fun m => m.asString ++ "\n"))))
    (.ok "")

/-- bib.py `hash_bibfiles`: for biber, the md5 of the whole .bcf text
(taking bibfiles[0] raises IndexError when no .bcf exists); for bibtex,
the md5 of the concatenated directive lines; for any other tool value the
empty string is returned. -/
def hash_bibfiles (fs : FS) (tool : Option String) : Except PyErr Digest :=
  let bibfiles := guess_bibfiles fs tool
  if tool = some "biber" then
    match bibfiles with
    | [] => .error .indexError
    | f :: _ =>
      match readFile fs f with
      | none => .error .fileNotFound
      | some txt => .ok (.md5 txt)
  else if tool = some "bibtex" then
    match bibtexContents fs bibfiles with
    | .error e => .error e
    | .ok contents => .ok (.md5 contents)
  else .ok .empty

/-- bib.py `Bibtool.__init__` (the flat module takes texfile, encoding and
an optional tool hint): an empty or missing hint is replaced by the
guessed tool, the bib files are enumerated, and the stored fingerprint
starts as the empty string. -/
structure BibtoolState where
  tool : Option String
  bib_files : List FileId
  fingerprint : Digest
deriving DecidableEq, Repr

def Bibtool.init (fs : FS) (hint : Option String) : BibtoolState :=
  let tool :=
    match hint with
    | none => guess_bibtool fs
    | some "" => guess_bibtool fs
    | some h => some h
  { tool := tool, bib_files := guess_bibfiles fs tool, fingerprint := .empty }

/-- Modelled from the spec: `Bibtool.get_rerun` is called by both drivers
(pytex.py `run_bib` and src/pytex/__main__.py `run_bib`) but is absent
from the flat bib.py; it lives in the packaged module src/pytex/bib.py,
which is not part of the provided sources.  Per spec §4.3, it compares
the freshly computed fingerprint against the one stored after the last
invocation and recommends a rerun when they differ. -/
def Bibtool.get_rerun (fs : FS) (t : BibtoolState) : Except PyErr Bool :=
  match hash_bibfiles fs t.tool with
  | .error e => .error e
  | .ok d => .ok (decide (d ≠ t.fingerprint))

/-- The truth value Python gives a generator object: always true.  Both
`Path.cwd().glob(...)` results in index.py are generators tested with
`if tagged_idx:` / `not tagged_idx`, so those tests never see the matched
names. -/
def genTruthy (globbed : List String) : Bool :=
  let _ := globbed
  true

/-- re.search of RE_TAGGED_INDEX_ENTRY (index.py line 42) with re.M: some
line start is followed by whitespace, a tagged indexentry directive with a
nonempty bracket group, and the closing bracket. -/
def taggedEntryAt (cs : List Char) : Bool :=
  let rest := cs.dropWhile isPySpace
  if "\\indexentry[".data.isPrefixOf rest then
    let body := (rest.drop 12).takeWhile (fun c => c ≠ ']')
    !body.isEmpty &&
      (match (rest.drop 12).drop body.length with
       | ']' :: _ => true
       | _ => false)
  else false

/-- re.search of RE_UNTAGGED_INDEX_ENTRY (index.py line 43) with re.M. -/
def untaggedEntryAt (cs : List Char) : Bool :=
  "\\indexentry\x7b".data.isPrefixOf (cs.dropWhile isPySpace)

/-- Try a line-start-anchored predicate at the text start and after each
newline. -/
def searchLineStarts (p : List Char → Bool) (fuel : Nat) (cs : List Char) :
    Bool :=
  match fuel with
  | 0 => false
  | fuel + 1 =>
    p cs ||
    (let rest := cs.dropWhile (fun c => c ≠ '\n')
     match rest with
     | _ :: tl => searchLineStarts p fuel tl
     | [] => false)

def taggedEntrySearch (txt : String) : Bool :=
  searchLineStarts taggedEntryAt (txt.data.length + 1) txt.data

def untaggedEntrySearch (txt : String) : Bool :=
  searchLineStarts untaggedEntryAt (txt.data.length + 1) txt.data

/-- index.py `guess_index_tool`: a tagged entry in the main .idx file
selects splitindex.  The makeindex branch requires `not tagged_idx`,
which is false for every generator, so it is dead code; the final
loop over the glob names calls read_text on plain strings and raises
AttributeError as soon as the glob matched anything. -/
def guess_index_tool (fs : FS) : Except PyErr (Option String) :=
  let step1 : Option String :=
    match fs.idxMain with
    | some txt =>
      if taggedEntrySearch txt then some "splitindex"
      else if untaggedEntrySearch txt && !genTruthy fs.taggedIdx then
        some "makeindex"
      else none
    | none => none
  match step1 with
  | some t => .ok (some t)
  | none =>
    if genTruthy fs.taggedIdx then
      match fs.taggedIdx with
      | [] => .ok none
      | _ :: _ => .error .attributeError
    else .ok none

/-- index.py `guess_index_files`: splitindex always gets the single main
.idx file.  For every other tool value, the single-untagged-file branch is
guarded by `not tagged_idx`, false for a generator, so it never returns;
the final loop calls read_text on plain strings and raises AttributeError
when the glob matched anything, and returns the empty list otherwise. -/
def guess_index_files (fs : FS) (tool : Option String) :
    Except PyErr (List FileId) :=
  if tool = some "splitindex" then .ok [FileId.idxMain]
  else
    let deadSingle :=
      match fs.idxMain with
      | some txt => untaggedEntrySearch txt && !genTruthy fs.taggedIdx
      | none => false
    if deadSingle then .ok [FileId.texfile]
    else if genTruthy fs.taggedIdx then
      match fs.taggedIdx with
      | [] => .ok []
      | _ :: _ => .error .attributeError
    else .ok []

/-- index.py `hash_index_files`: for splitindex, the md5 of the whole main
.idx text; for makeindex, the loop immediately calls `RE_INDEX.finditer`,
but RE_INDEX (index.py line 38) is a raw string that was never compiled,
so the first file processed raises AttributeError — only an empty file
list avoids it, hashing the empty concatenation; any other tool value
returns the empty string. -/
def hash_index_files (fs : FS) (tool : Option String) :
    Except PyErr Digest :=
  match guess_index_files fs tool with
  | .error e => .error e
  | .ok idx_files =>
    if tool = some "splitindex" then
      match idx_files with
      | [] => .error .indexError
      | f :: _ =>
        match readFile fs f with
        | none => .error .fileNotFound
        | some txt => .ok (.md5 txt)
    else if tool = some "makeindex" then
      match idx_files with
      | [] => .ok (.md5 "")
      | f :: _ =>
        match readFile fs f with
        | none => .error .fileNotFound
        | some _ => .error .attributeError
    else .ok .empty

/-- index.py `Idxtool.__init__`: guess the recommended tool (possibly
raising), adopt the hint when one is given, enumerate the index files
(possibly raising), re-guess when no hint was given (same value, the
probe is repeated in the source), and start with an empty fingerprint. -/
structure IdxtoolState where
  tool : Option String
  idx_files : List FileId
  fingerprint : Digest
deriving DecidableEq, Repr

def hintEmpty (hint : Option String) : Bool :=
  match hint with
  | none => true
  | some "" => true
  | some _ => false

def Idxtool.init (fs : FS) (hint : Option String) :
    Except PyErr IdxtoolState :=
  match guess_index_tool fs with
  | .error e => .error e
  | .ok recommended =>
    let tool := if hintEmpty hint then recommended else hint
    match guess_index_files fs tool with
    | .error e => .error e
    | .ok files =>
      if hintEmpty hint then
        match guess_index_tool fs with
        | .error e => .error e
        | .ok r2 => .ok { tool := r2, idx_files := files, fingerprint := .empty }
      else .ok { tool := tool, idx_files := files, fingerprint := .empty }

/-- index.py `Idxtool.get_rerun` (lines 287-292): recompute the hash of
the files to process and recommend a rerun when it differs from the
stored fingerprint. -/
def Idxtool.get_rerun (fs : FS) (t : IdxtoolState) : Except PyErr Bool :=
  match hash_index_files fs t.tool with
  | .error e => .error e
  | .ok d => .ok (decide (d ≠ t.fingerprint))

/-- What one compilation pass leaves behind, as observed by the drivers:
the rerun recommendation and the number of parsed errors. -/
structure PassOutcome where
  rerun : Bool
  nbErrors : Nat
deriving DecidableEq, Repr

/-- The environment of a pipeline execution: the outcome of the k-th
compilation pass, the get_rerun answers of the two auxiliary tools before
the k-th cycle's invocations, and whether their run calls report having
effectively used a tool. -/
structure LoopEnv where
  pass : Nat → PassOutcome
  bibRerun : Nat → Bool
  bibExec : Nat → Bool
  idxRerun : Nat → Bool
  idxExec : Nat → Bool

/-- The record of one executed cycle: which pass ran, and whether the
bibliography/index tools were consulted-and-invoked this cycle. -/
structure CycleTrace where
  idx : Nat
  outcome : PassOutcome
  bibInvoked : Bool
  idxInvoked : Bool
deriving DecidableEq, Repr

/-- How a pipeline run ended: aborted by sys.exit(1) on errors, or the
loop condition became false with the given cycle count and final rerun
flag. -/
inductive PipeExit where
  | aborted
  | done (nbcycles : Nat) (rerun : Bool)
deriving DecidableEq, Repr

/-- The cycle cap of both drivers. -/
def maxNbCycles : Nat := 5

/-- The loop of src/pytex/__main__.py `run_pipeline` (lines 236-253):
continue while (the compiler requests a rerun OR the bib tool just
executed OR the index tool just executed) AND the cycle counter is below
the cap; each cycle runs the compiler (exiting on errors before any tool
is consulted), then gates each tool's run on its get_rerun answer.

Modelled from the spec: `Processor.get_nbcycles` and the boolean result
of the packaged tools' run methods live in src/pytex/process.py, bib.py
and index.py, which are imported by __main__.py but are not part of the
provided sources; per spec §3 the cycle counter `k` is incremented once
per full iteration, and per §4.3 a run call reports whether a tool was
effectively used.  The structural `fuel` argument drives the recursion;
the drivers call the loop with fuel = maxNbCycles, so the fuel-exhausted
branch coincides with the cycle-cap test of the guard. -/
def pipelineLoop (env : LoopEnv) :
    Nat → Nat → Bool → Bool → Bool → List CycleTrace × PipeExit
  | fuel + 1, k, r, b, i =>
    if (r || b || i) && decide (k < maxNbCycles) then
      let p := env.pass k
      if 0 < p.nbErrors then
        ([{ idx := k, outcome := p, bibInvoked := false, idxInvoked := false }],
         .aborted)
      else
        let res := pipelineLoop env fuel (k + 1) p.rerun
          (env.bibRerun k && env.bibExec k) (env.idxRerun k && env.idxExec k)
        ({ idx := k, outcome := p, bibInvoked := env.bibRerun k,
           idxInvoked := env.idxRerun k } :: res.1, res.2)
    else ([], .done k r)
  | 0, k, r, _, _ => ([], .done k r)

/-- src/pytex/__main__.py `run_pipeline`: the loop starts with the
processor's initial rerun recommendation (True), no tool executions yet,
and cycle counter 0; afterwards the cap-exhaustion warning is shown when
the processor still recommends re-running and the counter reached the
cap.  Result: the cycle trace, the exit, and whether the warning was
shown. -/
def run_pipeline (env : LoopEnv) : List CycleTrace × PipeExit × Bool :=
  let res := pipelineLoop env maxNbCycles 0 true false false
  match res.2 with
  | .aborted => (res.1, .aborted, false)
  | .done k r => (res.1, .done k r, r && decide (maxNbCycles ≤ k))

/-- The loop of the flat driver pytex.py `main` (lines 210-233): the
guard uses only the compiler's rerun flag and the cycle counter; the body
is the same cycle (run, exit on errors, gate each tool on its
get_rerun).

This model idealizes the tool phase of an error-free cycle as succeeding:
in the actual flat sources, pytex.py lines 223 and 229 pass four
arguments to the three-parameter flat Bibtool/Idxtool constructors, and
run_bib (line 151) calls a get_rerun the flat Bibtool does not define, so
a real error-free cycle raises TypeError right after the compilation pass
and never reaches a second cycle.  The idealized model therefore admits
cycles a real flat run would not reach: universal bounds and the
error short-circuit proven over it cover every real run, but exact
multi-cycle scenario behavior is asserted only of the packaged driver
run_pipeline, never of this flat model. -/
def mainLoopFlat (env : LoopEnv) :
    Nat → Nat → Bool → List CycleTrace × PipeExit
  | fuel + 1, k, r =>
    if r && decide (k < maxNbCycles) then
      let p := env.pass k
      if 0 < p.nbErrors then
        ([{ idx := k, outcome := p, bibInvoked := false, idxInvoked := false }],
         .aborted)
      else
        let res := mainLoopFlat env fuel (k + 1) p.rerun
        ({ idx := k, outcome := p, bibInvoked := env.bibRerun k,
           idxInvoked := env.idxRerun k } :: res.1, res.2)
    else ([], .done k r)
  | 0, k, r => ([], .done k r)

/-- pytex.py `main` (lines 200-238): counter starts at 0, the processor's
initial rerun flag is True, and the cap-exhaustion warning is printed
when the processor still recommends re-running after the loop. -/
def pytex_main (env : LoopEnv) : List CycleTrace × PipeExit × Bool :=
  let res := mainLoopFlat env maxNbCycles 0 true
  match res.2 with
  | .aborted => (res.1, .aborted, false)
  | .done k r => (res.1, .done k r, r && decide (maxNbCycles ≤ k))

lemma MsgDict.any_touch (d : MsgDict) (k : String) :
    (MsgDict.touch d k).any (fun p => p.1 = k) = true := by
  unfold MsgDict.touch
  split
  · assumption
  · simp [List.any_append]

lemma MsgDict.touch_of_any (d : MsgDict) (k : String)
    (h : d.any (fun p => p.1 = k) = true) : MsgDict.touch d k = d := by
  unfold MsgDict.touch
  simp [h]

lemma MsgDict.touch_idem (d : MsgDict) (k : String) :
    MsgDict.touch (MsgDict.touch d k) k = MsgDict.touch d k :=
  MsgDict.touch_of_any _ _ (MsgDict.any_touch d k)

lemma MsgDict.find?_eq_none_of_any_eq_false (d : MsgDict) (k : String)
    (h : d.any (fun p => p.1 = k) = false) :
    d.find? (fun p => decide (p.1 = k)) = none := by
  rw [List.find?_eq_none]
  intro x hx
  rw [List.any_eq_false] at h
  simpa using h x hx

lemma MsgDict.any_add (d : MsgDict) (k : String) (m : Message) :
    (MsgDict.add d k m).any (fun p => p.1 = k) = true := by
  unfold MsgDict.add
  split
  · next h =>
    rw [List.any_eq_true] at h ⊢
    obtain ⟨p, hp, hpk⟩ := h
    simp only [decide_eq_true_eq] at hpk
    refine ⟨(p.1, p.2 ++ [m]), ?_, by simpa using hpk⟩
    rw [List.mem_map]
    exact ⟨p, hp, by simp [hpk]⟩
  · simp [List.any_append]

lemma MsgDict.get_touch (d : MsgDict) (k : String) :
    MsgDict.get (MsgDict.touch d k) k = MsgDict.get d k := by
  by_cases h : d.any (fun p => p.1 = k) = true
  · rw [MsgDict.touch_of_any d k h]
  · have h' : d.any (fun p => p.1 = k) = false := by
      revert h
      cases d.any fun p => p.1 = k <;> simp
    have hn := MsgDict.find?_eq_none_of_any_eq_false d k h'
    unfold MsgDict.touch
    rw [if_neg (by simp [h'])]
    unfold MsgDict.get
    rw [List.find?_append, hn]
    simp

lemma MsgDict.get_add (d : MsgDict) (k : String) (m : Message) :
    MsgDict.get (MsgDict.add d k m) k = MsgDict.get d k ++ [m] := by
  unfold MsgDict.add
  by_cases h : d.any (fun p => p.1 = k) = true
  · rw [if_pos h]
    unfold MsgDict.get
    rw [List.find?_map]
    have hp : ((fun q => decide (q.1 = k)) ∘
        (fun p => if p.1 = k then (p.1, p.2 ++ [m]) else p)) =
        fun p => decide (p.1 = k) := by
      funext p
      by_cases hk : p.1 = k <;> simp [hk]
    rw [hp]
    cases hf : d.find? fun p => decide (p.1 = k) with
    | none =>
      rw [List.find?_eq_none] at hf
      rw [List.any_eq_true] at h
      obtain ⟨x, hx, hxk⟩ := h
      exact absurd hxk (by simpa using hf x hx)
    | some p =>
      have hpk : p.1 = k := by
        have := List.find?_some hf
        simpa using this
      simp [hpk]
  · rw [if_neg h]
    have h' : d.any (fun p => p.1 = k) = false := by
      revert h
      cases d.any fun p => p.1 = k <;> simp
    have hn := MsgDict.find?_eq_none_of_any_eq_false d k h'
    unfold MsgDict.get
    rw [List.find?_append, hn]
    simp

lemma Messages.mem_append_self (b : List Message) (m : Message) :
    Messages.mem (b ++ [m]) m = true := by
  simp [Messages.mem]

lemma ProcessorWarnings.iadd_idem (pw : ProcessorWarnings) (m : Message) :
    ProcessorWarnings.iadd (ProcessorWarnings.iadd pw m) m =
      ProcessorWarnings.iadd pw m := by
  by_cases hL : m.mode = "LaTeX"
  · by_cases hb : Messages.mem (MsgDict.get pw.latex m.name) m = true
    · simp [ProcessorWarnings.iadd, ProcessorWarnings.containsTouch, hL, hb,
        MsgDict.get_touch, MsgDict.touch_idem]
    · simp [ProcessorWarnings.iadd, ProcessorWarnings.containsTouch, hL, hb,
        MsgDict.get_touch, MsgDict.touch_idem, MsgDict.get_add,
        MsgDict.any_add, MsgDict.touch_of_any, Messages.mem_append_self]
  · by_cases hP : m.mode = "Package"
    · by_cases hb : Messages.mem (MsgDict.get pw.package m.name) m = true
      · simp [ProcessorWarnings.iadd, ProcessorWarnings.containsTouch, hL, hP, hb,
          MsgDict.get_touch, MsgDict.touch_idem]
      · simp [ProcessorWarnings.iadd, ProcessorWarnings.containsTouch, hL, hP, hb,
          MsgDict.get_touch, MsgDict.touch_idem, MsgDict.get_add,
          MsgDict.any_add, MsgDict.touch_of_any, Messages.mem_append_self]
    · by_cases hC : m.mode = "Class"
      · by_cases hb : Messages.mem (MsgDict.get pw.cls m.name) m = true
        · simp [ProcessorWarnings.iadd, ProcessorWarnings.containsTouch, hL, hP, hC, hb,
            MsgDict.get_touch, MsgDict.touch_idem]
        · simp [ProcessorWarnings.iadd, ProcessorWarnings.containsTouch, hL, hP, hC, hb,
            MsgDict.get_touch, MsgDict.touch_idem, MsgDict.get_add,
            MsgDict.any_add, MsgDict.touch_of_any, Messages.mem_append_self]
      · simp [ProcessorWarnings.iadd, ProcessorWarnings.containsTouch, hL, hP, hC]

lemma ProcessorWarnings.iadd_empty_len (m : Message)
    (h : m.mode = "LaTeX" ∨ m.mode = "Package" ∨ m.mode = "Class") :
    (ProcessorWarnings.iadd ProcessorWarnings.empty m).len = 1 := by
  rcases h with h | h | h <;>
    simp [ProcessorWarnings.iadd, ProcessorWarnings.containsTouch,
      ProcessorWarnings.empty, h, MsgDict.touch, MsgDict.get, MsgDict.add,
      Messages.mem, ProcessorWarnings.len]

lemma pipelineLoop_length_le (env : LoopEnv) :
    ∀ fuel k r b i, (pipelineLoop env fuel k r b i).1.length ≤ fuel := by
  intro fuel
  induction fuel with
  | zero => intro k r b i; simp [pipelineLoop]
  | succ f ih =>
    intro k r b i
    simp only [pipelineLoop]
    split
    · split
      · simp
      · have := ih (k + 1) (env.pass k).rerun
          (env.bibRerun k && env.bibExec k) (env.idxRerun k && env.idxExec k)
        simp
        omega
    · simp

lemma mainLoopFlat_length_le (env : LoopEnv) :
    ∀ fuel k r, (mainLoopFlat env fuel k r).1.length ≤ fuel := by
  intro fuel
  induction fuel with
  | zero => intro k r; simp [mainLoopFlat]
  | succ f ih =>
    intro k r
    simp only [mainLoopFlat]
    split
    · split
      · simp
      · have := ih (k + 1) (env.pass k).rerun
        simp
        omega
    · simp

lemma pipelineLoop_error_cycle (env : LoopEnv) :
    ∀ fuel k r b i e, e ∈ (pipelineLoop env fuel k r b i).1 →
      0 < e.outcome.nbErrors →
      e.bibInvoked = false ∧ e.idxInvoked = false ∧
      (pipelineLoop env fuel k r b i).2 = PipeExit.aborted ∧
      (pipelineLoop env fuel k r b i).1.getLast? = some e := by
  intro fuel
  induction fuel with
  | zero => intro k r b i e he _; simp [pipelineLoop] at he
  | succ f ih =>
    intro k r b i e he herr
    simp only [pipelineLoop] at he ⊢
    by_cases hg : ((r || b || i) && decide (k < maxNbCycles)) = true
    · rw [if_pos hg] at he ⊢
      by_cases hp : 0 < (env.pass k).nbErrors
      · rw [if_pos hp] at he ⊢
        simp at he
        subst he
        simp
      · rw [if_neg hp] at he ⊢
        simp only [List.mem_cons] at he
        rcases he with he | he
        · subst he
          simp at herr
          exact absurd herr hp
        · have hin := ih (k + 1) (env.pass k).rerun
            (env.bibRerun k && env.bibExec k) (env.idxRerun k && env.idxExec k)
            e he herr
          obtain ⟨c, cs, hcc⟩ : ∃ c cs,
              (pipelineLoop env f (k + 1) (env.pass k).rerun
                (env.bibRerun k && env.bibExec k)
                (env.idxRerun k && env.idxExec k)).1 = c :: cs := by
            cases hres : (pipelineLoop env f (k + 1) (env.pass k).rerun
                (env.bibRerun k && env.bibExec k)
                (env.idxRerun k && env.idxExec k)).1 with
            | nil => rw [hres] at he; simp at he
            | cons c cs => exact ⟨c, cs, rfl⟩
          refine ⟨hin.1, hin.2.1, hin.2.2.1, ?_⟩
          rw [hcc] at hin ⊢
          simpa [List.getLast?_cons_cons] using hin.2.2.2
    · rw [if_neg hg] at he
      simp at he

lemma mainLoopFlat_error_cycle (env : LoopEnv) :
    ∀ fuel k r e, e ∈ (mainLoopFlat env fuel k r).1 →
      0 < e.outcome.nbErrors →
      e.bibInvoked = false ∧ e.idxInvoked = false ∧
      (mainLoopFlat env fuel k r).2 = PipeExit.aborted ∧
      (mainLoopFlat env fuel k r).1.getLast? = some e := by
  intro fuel
  induction fuel with
  | zero => intro k r e he _; simp [mainLoopFlat] at he
  | succ f ih =>
    intro k r e he herr
    simp only [mainLoopFlat] at he ⊢
    by_cases hg : (r && decide (k < maxNbCycles)) = true
    · rw [if_pos hg] at he ⊢
      by_cases hp : 0 < (env.pass k).nbErrors
      · rw [if_pos hp] at he ⊢
        simp at he
        subst he
        simp
      · rw [if_neg hp] at he ⊢
        simp only [List.mem_cons] at he
        rcases he with he | he
        · subst he
          simp at herr
          exact absurd herr hp
        · have hin := ih (k + 1) (env.pass k).rerun e he herr
          obtain ⟨c, cs, hcc⟩ : ∃ c cs,
              (mainLoopFlat env f (k + 1) (env.pass k).rerun).1 = c :: cs := by
            cases hres : (mainLoopFlat env f (k + 1) (env.pass k).rerun).1 with
            | nil => rw [hres] at he; simp at he
            | cons c cs => exact ⟨c, cs, rfl⟩
          refine ⟨hin.1, hin.2.1, hin.2.2.1, ?_⟩
          rw [hcc] at hin ⊢
          simpa [List.getLast?_cons_cons] using hin.2.2.2
    · rw [if_neg hg] at he
      simp at he

lemma pipelineLoop_guard_iff (env : LoopEnv) (fuel k : Nat) (r b i : Bool)
    (hfk : maxNbCycles ≤ fuel + k) :
    (pipelineLoop env fuel k r b i).1 ≠ [] ↔
      ((r || b || i) && decide (k < maxNbCycles)) = true := by
  cases fuel with
  | zero =>
    have hk : ¬ k < maxNbCycles := by omega
    simp [pipelineLoop, hk]
  | succ f =>
    simp only [pipelineLoop]
    by_cases hg : ((r || b || i) && decide (k < maxNbCycles)) = true
    · rw [if_pos hg]
      by_cases hp : 0 < (env.pass k).nbErrors
      · rw [if_pos hp]
        simpa using hg
      · rw [if_neg hp]
        simpa using hg
    · rw [if_neg hg]
      simpa using hg

lemma run_pipeline_first_cycle (env : LoopEnv) :
    1 ≤ (run_pipeline env).1.length := by
  have h1 : (pipelineLoop env maxNbCycles 0 true false false).1 ≠ [] := by
    rw [pipelineLoop_guard_iff env maxNbCycles 0 true false false (by omega)]
    simp [maxNbCycles]
  unfold run_pipeline
  cases hx : (pipelineLoop env maxNbCycles 0 true false false).2 <;>
    simp_all [List.length_pos]
  · cases hl : (pipelineLoop env maxNbCycles 0 true false false).1 with
    | nil => simp_all
    | cons c cs => simp
  · cases hl : (pipelineLoop env maxNbCycles 0 true false false).1 with
    | nil => simp_all
    | cons c cs => simp

lemma pytex_main_first_cycle (env : LoopEnv) :
    1 ≤ (pytex_main env).1.length := by
  have h1 : (mainLoopFlat env maxNbCycles 0 true).1 ≠ [] := by
    simp only [maxNbCycles, mainLoopFlat]
    rw [if_pos (by simp)]
    by_cases hp : 0 < (env.pass 0).nbErrors
    · rw [if_pos hp]; simp
    · rw [if_neg hp]; simp
  have hlen : 1 ≤ (mainLoopFlat env maxNbCycles 0 true).1.length := by
    have := List.length_pos.mpr h1
    omega
  unfold pytex_main
  rcases hx : (mainLoopFlat env maxNbCycles 0 true).2 with _ | ⟨k, r⟩ <;>
    simp only [hx] <;> simpa using hlen

lemma errFold (rs : List ErrMatch) (es : List Message) :
    rs.foldl (fun a r => a ++ [mkErrMsg r]) es = es ++ rs.map mkErrMsg := by
  induction rs generalizing es with
  | nil => simp
  | cons r rs ih => simp [ih]

lemma warnStep_warnings_file (p : ProcessorState × String) (fn sfx : String) :
    (warnStep p (.file fn sfx)).1.warnings = p.1.warnings := by
  dsimp [warnStep]
  split <;> rfl

lemma warnStep_global_file (p : ProcessorState × String) (fn sfx : String) :
    (warnStep p (.file fn sfx)).1.global_warnings = p.1.global_warnings := by
  dsimp [warnStep]
  split <;> rfl

lemma warnStep_key_file (p : ProcessorState × String) (fn sfx : String) :
    (warnStep p (.file fn sfx)).2 = fn ++ sfx := by
  dsimp [warnStep]

lemma warnFold_congr :
    ∀ (ts : List WarnToken) (s t : ProcessorState) (key : String),
      s.warnings = t.warnings → s.global_warnings = t.global_warnings →
      (ts.foldl warnStep (s, key)).1.warnings =
          (ts.foldl warnStep (t, key)).1.warnings ∧
      (ts.foldl warnStep (s, key)).1.global_warnings =
          (ts.foldl warnStep (t, key)).1.global_warnings ∧
      (ts.foldl warnStep (s, key)).2 = (ts.foldl warnStep (t, key)).2 := by
  intro ts
  induction ts with
  | nil => intro s t key hw hg; exact ⟨hw, hg, rfl⟩
  | cons tok ts ih =>
    intro s t key hw hg
    rw [List.foldl_cons, List.foldl_cons]
    cases tok with
    | file fn sfx =>
      have h1 := ih (warnStep (s, key) (.file fn sfx)).1
        (warnStep (t, key) (.file fn sfx)).1 (fn ++ sfx)
        (by rw [warnStep_warnings_file, warnStep_warnings_file]; exact hw)
        (by rw [warnStep_global_file, warnStep_global_file]; exact hg)
      have hks : (warnStep (s, key) (.file fn sfx)).2 = fn ++ sfx :=
        warnStep_key_file _ _ _
      have hkt : (warnStep (t, key) (.file fn sfx)).2 = fn ++ sfx :=
        warnStep_key_file _ _ _
      rw [show warnStep (s, key) (.file fn sfx) =
            ((warnStep (s, key) (.file fn sfx)).1, fn ++ sfx) from
          Prod.ext rfl hks,
        show warnStep (t, key) (.file fn sfx) =
            ((warnStep (t, key) (.file fn sfx)).1, fn ++ sfx) from
          Prod.ext rfl hkt]
      exact h1
    | warn mode nm msg =>
      dsimp only [warnStep]
      rw [hg]
      split
      · exact ih s t key hw hg
      · exact ih _ _ key (by dsimp; rw [hw]) (by dsimp)

lemma warnFold_preserve :
    ∀ (ts : List WarnToken) (p : ProcessorState × String),
      (ts.foldl warnStep p).1.errors = p.1.errors ∧
      (ts.foldl warnStep p).1.rerun = p.1.rerun := by
  intro ts
  induction ts with
  | nil => intro p; exact ⟨rfl, rfl⟩
  | cons tok ts ih =>
    intro p
    rw [List.foldl_cons]
    refine ⟨?_, ?_⟩
    · rw [(ih (warnStep p tok)).1]
      cases tok with
      | file fn sfx => dsimp [warnStep]; split <;> rfl
      | warn mode nm msg => dsimp [warnStep]; split <;> rfl
    · rw [(ih (warnStep p tok)).2]
      cases tok with
      | file fn sfx => dsimp [warnStep]; split <;> rfl
      | warn mode nm msg => dsimp [warnStep]; split <;> rfl

lemma warnFold_ledger :
    ∀ (ts : List WarnToken) (p : ProcessorState × String),
      ∃ l, (ts.foldl warnStep p).1.input_files = p.1.input_files ++ l := by
  intro ts
  induction ts with
  | nil => intro p; exact ⟨[], by simp⟩
  | cons tok ts ih =>
    intro p
    rw [List.foldl_cons]
    cases tok with
    | file fn sfx =>
      dsimp only [warnStep]
      by_cases hmem : (fn ++ sfx) ∈ p.1.input_files
      · rw [if_pos hmem]
        exact ih _
      · rw [if_neg hmem]
        obtain ⟨l, hl⟩ := ih
          ({ p.1 with input_files := p.1.input_files ++ [fn ++ sfx] }, fn ++ sfx)
        refine ⟨[fn ++ sfx] ++ l, ?_⟩
        rw [hl]
        simp
    | warn mode nm msg =>
      dsimp only [warnStep]
      split
      · exact ih _
      · exact ih _

lemma run_pipeline_fst (env : LoopEnv) :
    (run_pipeline env).1 = (pipelineLoop env maxNbCycles 0 true false false).1 := by
  unfold run_pipeline
  cases hx : (pipelineLoop env maxNbCycles 0 true false false).2 with
  | aborted => simp [hx]
  | done k r => simp [hx]

lemma run_pipeline_exit (env : LoopEnv) :
    (run_pipeline env).2.1 = (pipelineLoop env maxNbCycles 0 true false false).2 := by
  unfold run_pipeline
  cases hx : (pipelineLoop env maxNbCycles 0 true false false).2 with
  | aborted => simp [hx]
  | done k r => simp [hx]

lemma pytex_main_fst (env : LoopEnv) :
    (pytex_main env).1 = (mainLoopFlat env maxNbCycles 0 true).1 := by
  unfold pytex_main
  cases hx : (mainLoopFlat env maxNbCycles 0 true).2 with
  | aborted => simp [hx]
  | done k r => simp [hx]

lemma pytex_main_exit (env : LoopEnv) :
    (pytex_main env).2.1 = (mainLoopFlat env maxNbCycles 0 true).2 := by
  unfold pytex_main
  cases hx : (mainLoopFlat env maxNbCycles 0 true).2 with
  | aborted => simp [hx]
  | done k r => simp [hx]

/-- The environment in which every pass requests a rerun, never fails, and
both tools always recommend and perform work. -/
def envAllRerun : LoopEnv :=
  { pass := fun _ => { rerun := true, nbErrors := 0 },
    bibRerun := fun _ => true, bibExec := fun _ => true,
    idxRerun := fun _ => true, idxExec := fun _ => true }

/-- The environment in which the compiler never requests a rerun but the
bibliography tool runs in the first cycle only. -/
def envBibOnly : LoopEnv :=
  { pass := fun _ => { rerun := false, nbErrors := 0 },
    bibRerun := fun k => decide (k = 0), bibExec := fun k => decide (k = 0),
    idxRerun := fun _ => false, idxExec := fun _ => false }

/-- The environment in which the compiler never requests a rerun and no
tool ever runs. -/
def envNoTools : LoopEnv :=
  { pass := fun _ => { rerun := false, nbErrors := 0 },
    bibRerun := fun _ => false, bibExec := fun _ => false,
    idxRerun := fun _ => false, idxExec := fun _ => false }

/-- The environment in which the first pass leaves one error record. -/
def envFirstError : LoopEnv :=
  { pass := fun _ => { rerun := true, nbErrors := 1 },
    bibRerun := fun _ => true, bibExec := fun _ => true,
    idxRerun := fun _ => true, idxExec := fun _ => true }

/-- C1: for every sequence of rerun signals of the compilation pass runner
and the two auxiliary tools, the convergence loop executes at most 5
cycles and terminates; the bound is proven for the packaged driver
run_pipeline and for the flat-driver model (whose idealized tool phase
only adds cycles a real flat run, which raises TypeError during tool
construction, would not reach — see mainLoopFlat).  The all-rerun
scenario — stop after the fifth pass, report the cap-exhaustion warning,
start no sixth pass — is asserted of the packaged driver, the one that
can actually complete a cycle. -/
theorem C1_cycle_cap :
    (∀ env : LoopEnv, (run_pipeline env).1.length ≤ maxNbCycles) ∧
    (∀ env : LoopEnv, (pytex_main env).1.length ≤ maxNbCycles) ∧
    (run_pipeline envAllRerun).1.length = 5 ∧
    (run_pipeline envAllRerun).2.1 = PipeExit.done 5 true ∧
    (run_pipeline envAllRerun).2.2 = true := by
  refine ⟨?_, ?_, by decide, by decide, by decide⟩
  · intro env
    rw [run_pipeline_fst]
    exact pipelineLoop_length_le env maxNbCycles 0 true false false
  · intro env
    rw [pytex_main_fst]
    exact mainLoopFlat_length_le env maxNbCycles 0 true

/-- C2: in every cycle of the convergence loop (in both drivers), if the
compilation pass leaves at least one error record the pipeline aborts
immediately: neither auxiliary tool is invoked in that cycle, and that
cycle is the last one. -/
theorem C2_error_abort :
    (∀ (env : LoopEnv) (e : CycleTrace), e ∈ (run_pipeline env).1 →
       0 < e.outcome.nbErrors →
       e.bibInvoked = false ∧ e.idxInvoked = false ∧
       (run_pipeline env).2.1 = PipeExit.aborted ∧
       (run_pipeline env).1.getLast? = some e) ∧
    (∀ (env : LoopEnv) (e : CycleTrace), e ∈ (pytex_main env).1 →
       0 < e.outcome.nbErrors →
       e.bibInvoked = false ∧ e.idxInvoked = false ∧
       (pytex_main env).2.1 = PipeExit.aborted ∧
       (pytex_main env).1.getLast? = some e) := by
  constructor
  · intro env e he herr
    rw [run_pipeline_fst] at he ⊢
    rw [run_pipeline_exit]
    exact pipelineLoop_error_cycle env maxNbCycles 0 true false false e he herr
  · intro env e he herr
    rw [pytex_main_fst] at he ⊢
    rw [pytex_main_exit]
    exact mainLoopFlat_error_cycle env maxNbCycles 0 true e he herr

/-- The single trace entry of the failing-first-pass environment. -/
def c2entry : CycleTrace :=
  { idx := 0, outcome := { rerun := true, nbErrors := 1 },
    bibInvoked := false, idxInvoked := false }

/-- Witness for C2 at a concrete environment whose first pass fails. -/
theorem C2_error_abort_witness :
    c2entry.bibInvoked = false ∧ c2entry.idxInvoked = false ∧
    (run_pipeline envFirstError).2.1 = PipeExit.aborted ∧
    (run_pipeline envFirstError).1.getLast? = some c2entry :=
  C2_error_abort.1 envFirstError c2entry (by decide) (by decide)

/-- C3: the convergence loop of run_pipeline continues to a next cycle
exactly when (the compiler requests a rerun OR the bibliography tool just
executed OR the index tool just executed) AND the cycle counter is below
5; concretely, a bibliography-tool execution alone triggers a second
cycle although the compiler requested no rerun, and without it the loop
stops after one cycle. -/
theorem C3_loop_condition :
    (∀ (env : LoopEnv) (fuel k : Nat) (r b i : Bool),
       maxNbCycles ≤ fuel + k →
       ((pipelineLoop env fuel k r b i).1 ≠ [] ↔
         ((r || b || i) && decide (k < maxNbCycles)) = true)) ∧
    (run_pipeline envBibOnly).1.length = 2 ∧
    (run_pipeline envNoTools).1.length = 1 :=
  ⟨fun env fuel k r b i h => pipelineLoop_guard_iff env fuel k r b i h,
   by decide, by decide⟩

/-- Witness for C3 at a concrete environment state. -/
theorem C3_loop_condition_witness :
    (pipelineLoop envBibOnly maxNbCycles 0 true false false).1 ≠ [] :=
  (C3_loop_condition.1 envBibOnly maxNbCycles 0 true false false
    (by decide)).mpr (by decide)

/-- C10: a newly constructed Processor reports rerun=true before the
first run() call, and consequently both drivers always execute at least
one compilation pass, whatever the environment. -/
theorem C10_initial_rerun :
    ProcessorState.init.rerun = true ∧
    (∀ env : LoopEnv, 1 ≤ (run_pipeline env).1.length) ∧
    (∀ env : LoopEnv, 1 ≤ (pytex_main env).1.length) :=
  ⟨rfl, run_pipeline_first_cycle, pytex_main_first_cycle⟩

/-- Decidable equality of Except results, used to evaluate the embedded
functions on concrete inputs. -/
def exceptDecEq {ε α : Type} [DecidableEq ε] [DecidableEq α] :
    DecidableEq (Except ε α) := fun a b =>
  match a, b with
  | .error e, .error f =>
    if h : e = f then .isTrue (by rw [h])
    else .isFalse (fun hh => by cases hh; exact h rfl)
  | .ok x, .ok y =>
    if h : x = y then .isTrue (by rw [h])
    else .isFalse (fun hh => by cases hh; exact h rfl)
  | .error _, .ok _ => .isFalse (fun hh => Except.noConfusion hh)
  | .ok _, .error _ => .isFalse (fun hh => Except.noConfusion hh)

instance {ε α : Type} [DecidableEq ε] [DecidableEq α] :
    DecidableEq (Except ε α) := exceptDecEq

/-- C8 counterexample: processing a pass whose .log file is absent is not
recovered: Processor.run reads the log for the rerun update with no
existence check, so the pass raises FileNotFoundError instead of
continuing. -/
theorem C8_counterexample :
    ProcessorState.init.run none = Except.error PyErr.fileNotFound := rfl

/-- C8 (amended): when the log file is absent, process_warnings and
process_errors print a warning and return with the state unchanged (no
diagnostics, recoverable); but Processor.run itself reads the log for the
rerun update without an existence check, so the pass is aborted by an
exception (and only the two parsing routines behave recoverably). -/
theorem C8_missing_log :
    (∀ s : ProcessorState, s.process_warnings none = s) ∧
    (∀ s : ProcessorState, s.process_errors none = s) ∧
    (∀ s : ProcessorState, s.run none = Except.error PyErr.fileNotFound) :=
  ⟨fun _ => rfl, fun _ => rfl, fun _ => rfl⟩

/-- C9: every RE_ERROR match of the raw log text is appended as one Error
record with no de-duplication; the scenario log yields one record with
path chapter1.tex and line 42, and a log with two structurally equal
error matches yields two identical records. -/
theorem C9_errors_no_dedup :
    (∀ (s : ProcessorState) (txt : String),
       (s.process_errors (some txt)).errors =
         s.errors ++ (findErrors txt).map mkErrMsg) ∧
    (ProcessorState.init.process_errors
        (some "chapter1.tex:42 Undefined control sequence")).errors =
      [{ mode := "", info := " Undefined control sequence", name := "",
         path := "chapter1.tex", line := "42" }] ∧
    (ProcessorState.init.process_errors
        (some "x.tex:1 Bad\n\nx.tex:1 Bad")).errors =
      [{ mode := "", info := " Bad", name := "", path := "x.tex", line := "1" },
       { mode := "", info := " Bad", name := "", path := "x.tex", line := "1" }] := by
  refine ⟨?_, by decide, by decide⟩
  intro s txt
  dsimp only [ProcessorState.process_errors]
  exact errFold _ _

/-- The diagnostics a caller reads after a pass: per-file warnings, the
global de-duplication set, the error list and the rerun flag (an error
result carries none). -/
def diagView :
    Except PyErr ProcessorState →
      Option (PWDict × List Message × List Message × Bool) := fun x =>
  match x with
  | .ok s => some (s.warnings, s.global_warnings, s.errors, s.rerun)
  | .error _ => none

/-- C5 counterexample: run() does not clear the Input-File Ledger.  After
a pass whose log opened ./chap.tex, a second pass over an empty log
still reports the ledger entry of the previous pass, so the ledger does
not reflect only the latest pass (the claim expects it to be reset to
the sentinel-only list). -/
theorem C5_counterexample :
    Except.bind (ProcessorState.init.run (some "(./chap.tex\n"))
        (fun s => s.run (some "")) =
      Except.ok
        { warnings := [], global_warnings := [],
          input_files := ["", "./chap.tex"], errors := [], rerun := false } ∧
    (["", "./chap.tex"] : List String) ≠ [""] :=
  ⟨by rfl, by decide⟩

/-- C5 (amended): every call to Processor.run() clears the per-file
warnings, the global de-duplication set and the error list, so the
diagnostics and the rerun flag after a pass depend only on that pass's
log text; the Input-File Ledger, however, is not cleared: it only ever
grows, retaining the entries accumulated by previous calls. -/
theorem C5_run_clears_diagnostics_only :
    (∀ (s t : ProcessorState) (txt : String),
       diagView (s.run (some txt)) = diagView (t.run (some txt))) ∧
    (∀ (s : ProcessorState) (txt : String) (s' : ProcessorState),
       s.run (some txt) = .ok s' →
       ∃ l, s'.input_files = s.input_files ++ l) := by
  constructor
  · intro s t txt
    dsimp only [ProcessorState.run, ProcessorState.process_warnings,
      ProcessorState.process_errors, diagView]
    have hc := warnFold_congr (scanWarnings (unwrap txt))
      { s with
          warnings := [], global_warnings := [], errors := [],
          rerun := rerunSearch txt }
      { t with
          warnings := [], global_warnings := [], errors := [],
          rerun := rerunSearch txt }
      "" rfl rfl
    have hp1 := warnFold_preserve (scanWarnings (unwrap txt))
      ({ s with
           warnings := [], global_warnings := [], errors := [],
           rerun := rerunSearch txt }, "")
    have hp2 := warnFold_preserve (scanWarnings (unwrap txt))
      ({ t with
           warnings := [], global_warnings := [], errors := [],
           rerun := rerunSearch txt }, "")
    rw [errFold, errFold]
    rw [hc.1, hc.2.1, hp1.1, hp2.1, hp1.2, hp2.2]
  · intro s txt s' h
    dsimp only [ProcessorState.run, ProcessorState.process_warnings,
      ProcessorState.process_errors] at h
    cases h
    obtain ⟨l, hl⟩ := warnFold_ledger (scanWarnings (unwrap txt))
      ({ s with
           warnings := [], global_warnings := [], errors := [],
           rerun := rerunSearch txt }, "")
    exact ⟨l, hl⟩

/-- Witness for C5 (amended) at a concrete pass over an empty log. -/
theorem C5_run_clears_diagnostics_only_witness :
    ∃ l, ({ warnings := [], global_warnings := [], input_files := [""],
            errors := [], rerun := false } : ProcessorState).input_files =
      ProcessorState.init.input_files ++ l :=
  C5_run_clears_diagnostics_only.2 ProcessorState.init "" _ rfl

/-- The scenario log of C7: two identical package warnings, one before
and one after a file-open marker, separated by blank lines as the
compiler emits them. -/
def c7log : String :=
  "Package natbib Warning: Citation undefined\n\n(./chap.tex\n\nPackage natbib Warning: Citation undefined\n"

/-- The single diagnostic record the C7 scenario produces. -/
def c7msg : Message :=
  { mode := "Package", info := "Citation undefined", name := "natbib" }

/-- The processor state after the C7 scenario pass. -/
def c7state : ProcessorState :=
  { warnings :=
      [("", { latex := [], package := [("natbib", [c7msg])], cls := [] })],
    global_warnings := [c7msg],
    input_files := ["", "./chap.tex"],
    errors := [], rerun := false }

/-- Total number of warning records held by a processor state (analysis
helper). -/
def warnTotal (s : ProcessorState) : Nat :=
  (s.warnings.map (fun p => ProcessorWarnings.msgCount p.2)).sum

/-- C7: warning insertion is idempotent and globally de-duplicated within
one pass: re-adding a structurally equal record to a ProcessorWarnings
collection is a no-op (in general, and on the empty collection it leaves
the length at 1); and the scenario log with two identical package
warnings around a file-open marker yields exactly one recorded warning,
filed under the first (preamble) file context. -/
theorem C7_warning_dedup :
    (∀ m : Message,
       (m.mode = "LaTeX" ∨ m.mode = "Package" ∨ m.mode = "Class") →
       ProcessorWarnings.iadd
           (ProcessorWarnings.iadd ProcessorWarnings.empty m) m =
         ProcessorWarnings.iadd ProcessorWarnings.empty m ∧
       (ProcessorWarnings.iadd
           (ProcessorWarnings.iadd ProcessorWarnings.empty m) m).len = 1) ∧
    (∀ (pw : ProcessorWarnings) (m : Message),
       ProcessorWarnings.iadd (ProcessorWarnings.iadd pw m) m =
         ProcessorWarnings.iadd pw m) ∧
    ProcessorState.init.run (some c7log) = .ok c7state ∧
    warnTotal c7state = 1 ∧
    c7state.warnings.map Prod.fst = [""] ∧
    c7state.global_warnings = [c7msg] := by
  refine ⟨?_, ProcessorWarnings.iadd_idem, by rfl, by rfl, by rfl, by rfl⟩
  intro m h
  refine ⟨ProcessorWarnings.iadd_idem _ _, ?_⟩
  rw [ProcessorWarnings.iadd_idem]
  exact ProcessorWarnings.iadd_empty_len m h

/-- Witness for C7 at the concrete scenario record. -/
theorem C7_warning_dedup_witness :
    ProcessorWarnings.iadd
        (ProcessorWarnings.iadd ProcessorWarnings.empty c7msg) c7msg =
      ProcessorWarnings.iadd ProcessorWarnings.empty c7msg ∧
    (ProcessorWarnings.iadd
        (ProcessorWarnings.iadd ProcessorWarnings.empty c7msg) c7msg).len = 1 :=
  C7_warning_dedup.1 c7msg (Or.inr (Or.inl rfl))

/-- C4: for both auxiliary tools, get_rerun() answers exactly the
comparison of the freshly computed fingerprint with the one stored after
the last invocation; a freshly constructed tool stores the empty-string
sentinel, and since an md5 hexdigest is never the empty string, any tool
whose fingerprint computation succeeds with a digest recommends a rerun
before its first invocation. -/
theorem C4_get_rerun_fingerprint :
    (∀ (fs : FS) (t : BibtoolState) (d : Digest),
       hash_bibfiles fs t.tool = .ok d →
       Bibtool.get_rerun fs t = .ok (decide (d ≠ t.fingerprint))) ∧
    (∀ (fs : FS) (t : IdxtoolState) (d : Digest),
       hash_index_files fs t.tool = .ok d →
       Idxtool.get_rerun fs t = .ok (decide (d ≠ t.fingerprint))) ∧
    (∀ (fs : FS) (hint : Option String),
       (Bibtool.init fs hint).fingerprint = Digest.empty) ∧
    (∀ (fs : FS) (hint : Option String) (st : IdxtoolState),
       Idxtool.init fs hint = .ok st → st.fingerprint = Digest.empty) ∧
    (∀ (fs : FS) (t : BibtoolState) (c : String),
       t.fingerprint = Digest.empty →
       hash_bibfiles fs t.tool = .ok (.md5 c) →
       Bibtool.get_rerun fs t = .ok true) ∧
    (∀ (fs : FS) (t : IdxtoolState) (c : String),
       t.fingerprint = Digest.empty →
       hash_index_files fs t.tool = .ok (.md5 c) →
       Idxtool.get_rerun fs t = .ok true) := by
  refine ⟨?_, ?_, ?_, ?_, ?_, ?_⟩
  · intro fs t d h
    unfold Bibtool.get_rerun
    rw [h]
  · intro fs t d h
    unfold Idxtool.get_rerun
    rw [h]
  · intro fs hint
    rfl
  · intro fs hint st h
    unfold Idxtool.init at h
    cases hg : guess_index_tool fs with
    | error e => rw [hg] at h; exact absurd h (by simp)
    | ok rec =>
      rw [hg] at h
      dsimp only [] at h
      cases hf : guess_index_files fs (if hintEmpty hint then rec else hint) with
      | error e => rw [hf] at h; exact absurd h (by simp)
      | ok files =>
        rw [hf] at h
        dsimp only [] at h
        split at h <;> (injection h with h2; rw [← h2])
  · intro fs t c hF hok
    unfold Bibtool.get_rerun
    rw [hok, hF]
    simp
  · intro fs t c hF hok
    unfold Idxtool.get_rerun
    rw [hok, hF]
    simp

/-- Concrete evidence for C4: a working directory with a
compiled-bibliography control file, and one with a tagged index file. -/
def fsBibW : FS := { bcf := some "x" }

def fsIdxW : FS := { idxMain := some "\\indexentry[g]\x7ba\x7d\x7b1\x7d\n" }

def btW : BibtoolState := Bibtool.init fsBibW none

def itW : IdxtoolState :=
  { tool := some "splitindex", idx_files := [FileId.idxMain],
    fingerprint := .empty }

/-- Witness for C4: both freshly constructed tools recommend a rerun. -/
theorem C4_get_rerun_fingerprint_witness :
    Bibtool.get_rerun fsBibW btW = .ok true ∧
    Idxtool.get_rerun fsIdxW itW = .ok true :=
  ⟨C4_get_rerun_fingerprint.2.2.2.2.1 fsBibW btW "x" rfl rfl,
   C4_get_rerun_fingerprint.2.2.2.2.2 fsIdxW itW
     "\\indexentry[g]\x7ba\x7d\x7b1\x7d\n" rfl rfl⟩

/-- Two biber control files whose bib directives are byte-identical but
whose surrounding content differs. -/
def bcfA : String := "% timestamp 1\n\\citation\x7ba\x7d\n"

def bcfB : String := "% timestamp 2\n\\citation\x7ba\x7d\n"

def fsBiberA : FS := { bcf := some bcfA }

def fsBiberB : FS := { bcf := some bcfB }

/-- Pairs of .aux working directories for the bibtex fingerprint: same
directives with different irrelevant content, and a changed directive. -/
def fsAux1 : FS :=
  { auxFiles := [("doc.aux", "\\relax\n\\citation\x7bknuth\x7d\n% checksum 111\n")] }

def fsAux2 : FS :=
  { auxFiles := [("doc.aux", "\\relax\n\\citation\x7bknuth\x7d\n% checksum 222\n")] }

def fsAux3 : FS :=
  { auxFiles := [("doc.aux", "\\relax\n\\citation\x7blamport\x7d\n% checksum 111\n")] }

/-- The text hashed by the bibtex branch of hash_bibfiles: the
concatenated directive matches of the discovered .aux files. -/
def bibtexInput (fs : FS) : Except PyErr String :=
  bibtexContents fs (guess_bibfiles fs (some "bibtex"))

/-- C6 counterexample: the fingerprint is NOT a function of only the
relevant directive content for every selected tool.  For biber, two
control files with byte-identical directive matches but different
surrounding content produce different fingerprints (the whole file is
hashed); and the makeindex fingerprint path raises AttributeError (its
directive pattern is a raw string that was never compiled) as soon as
per-group index files exist. -/
theorem C6_counterexample :
    findBibDirectives (bcfA.data.length + 1) bcfA.data =
      findBibDirectives (bcfB.data.length + 1) bcfB.data ∧
    hash_bibfiles fsBiberA (some "biber") ≠
      hash_bibfiles fsBiberB (some "biber") ∧
    hash_index_files { taggedIdx := ["doc-idx1"] } (some "makeindex") =
      .error .attributeError :=
  ⟨by rfl, by decide, by rfl⟩

/-- C6 (amended): only the bibtex fingerprint is a function of the
extracted directive content: equal concatenated directive matches give
equal fingerprints, unchanged directives under changed irrelevant content
give the same fingerprint, and changing one directive changes it.  The
biber (and likewise splitindex) fingerprint is the hash of the whole
control file, and the makeindex path raises. -/
theorem C6_fingerprint_scope :
    (∀ (fs1 fs2 : FS) (c : String),
       bibtexInput fs1 = .ok c → bibtexInput fs2 = .ok c →
       hash_bibfiles fs1 (some "bibtex") = hash_bibfiles fs2 (some "bibtex")) ∧
    hash_bibfiles fsAux1 (some "bibtex") =
      hash_bibfiles fsAux2 (some "bibtex") ∧
    hash_bibfiles fsAux1 (some "bibtex") ≠
      hash_bibfiles fsAux3 (some "bibtex") ∧
    hash_bibfiles fsBiberA (some "biber") = .ok (.md5 bcfA) := by
  refine ⟨?_, by decide, by decide, by rfl⟩
  intro fs1 fs2 c h1 h2
  have e1 : hash_bibfiles fs1 (some "bibtex") = .ok (.md5 c) := by
    unfold hash_bibfiles
    rw [if_neg (by decide), if_pos rfl]
    unfold bibtexInput at h1
    rw [h1]
  have e2 : hash_bibfiles fs2 (some "bibtex") = .ok (.md5 c) := by
    unfold hash_bibfiles
    rw [if_neg (by decide), if_pos rfl]
    unfold bibtexInput at h2
    rw [h2]
  rw [e1, e2]

/-- Witness for C6 (amended): the invariance instance derived through the
theorem at two concrete directories. -/
theorem C6_fingerprint_scope_witness :
    hash_bibfiles fsAux1 (some "bibtex") =
      hash_bibfiles fsAux2 (some "bibtex") :=
  C6_fingerprint_scope.1 fsAux1 fsAux2 "\\citation\x7bknuth\x7d\n" rfl rfl
